import Mathlib

/-!
Verification of the log parsing / storage / anomaly-detection core of
`app.py` (LogWise), as a shallow embedding.

Conventions of the embedding:
* Python `str` values are `List Char` (a Python string is a sequence of
  Unicode code points); raw file bytes are `List Nat`.
* The sqlite `logs` table is a `List LogRecord` in insertion order; the
  auto-increment `id` column is the 1-based position.
* A pandas dataframe row of the logs table is a `Row`; the derived
  `length` / `anomaly` columns are `Option` fields, `none` meaning the
  column is absent.
* `sklearn.ensemble.IsolationForest` is an external library.  Its
  `fit_predict` is embedded as a function parameter
  `forest : contamination → random_state → entropy → data → labels-or-error`,
  where `entropy` stands for the ambient process randomness that sklearn
  would consult if `random_state` were `None`, and the `Except` models a
  raised exception.  Properties sklearn documents (label values in
  {-1, 1}, one label per sample, reproducibility under a fixed
  `random_state`) appear as hypotheses where a claim needs them.
* A raised Python exception is an `Except.error`.
-/

/-- A parsed log line: `{'timestamp': parts[0], 'level': parts[1],
'message': parts[2]}` in `parse_log`, and a row of the `logs` table
(without the auto id). -/
structure LogRecord where
  timestamp : List Char
  level : List Char
  message : List Char
deriving DecidableEq, Repr

/-- A pandas row of the fetched `logs` dataframe: the persisted columns
plus the two derived columns `detect_anomalies` may add. -/
structure Row where
  id : Nat
  timestamp : List Char
  level : List Char
  message : List Char
  length : Option Nat
  anomaly : Option Int
deriving DecidableEq, Repr

/-- The three persisted text fields of a stored record. -/
def recFields (r : LogRecord) : List Char × List Char × List Char :=
  (r.timestamp, r.level, r.message)

/-- The three persisted text fields of a dataframe row. -/
def rowFields (r : Row) : List Char × List Char × List Char :=
  (r.timestamp, r.level, r.message)

/-! ### Python string primitives used by `parse_log` -/

/-- Split `s` at the first occurrence of `sep` (Python `str.find` +
cut): `some (pre, post)` with `s = pre ++ sep ++ post` and the occurrence
leftmost, or `none` when `sep` does not occur in `s`.  This is the
primitive under both `' - ' in line` and `line.split(' - ', 2)`. -/
def breakOnSep (sep : List Char) : List Char → Option (List Char × List Char)
  | [] => none
  | c :: rest =>
    if sep.isPrefixOf (c :: rest) then
      some ([], (c :: rest).drop sep.length)
    else
      match breakOnSep sep rest with
      | some (pre, post) => some (c :: pre, post)
      | none => none

/-- Python `sep in s` (substring containment). -/
def containsSep (sep s : List Char) : Bool :=
  (breakOnSep sep s).isSome

/-- Python `s.split(sep, 2)`: cut at the first occurrence, then at the
first occurrence of the remainder; at most three parts, the last part
keeps any further occurrences of `sep`. -/
def pySplit2 (sep s : List Char) : List (List Char) :=
  match breakOnSep sep s with
  | none => [s]
  | some (a, r) =>
    match breakOnSep sep r with
    | none => [a, r]
    | some (b, r2) => [a, b, r2]

/-- The delimiter `' - '` of `parse_log`. -/
def delim : List Char := [' ', '-', ' ']

/-! ### UTF-8 decoding (`bytes.decode('utf-8')`, strict) -/

/-- A UTF-8 continuation byte (`0x80..0xBF`). -/
def contByte (b : Nat) : Bool := 0x80 ≤ b && b ≤ 0xBF

/-- Strict UTF-8 decoding of a byte sequence, as Python's
`bytes.decode('utf-8')`: rejects stray continuation bytes, overlong
forms, surrogate code points and values above `U+10FFFF`; `none` models
the raised `UnicodeDecodeError`. -/
def decodeUtf8 : List Nat → Option (List Char)
  | [] => some []
  | b :: bs =>
    if b ≤ 0x7F then
      (decodeUtf8 bs).map (fun cs => Char.ofNat b :: cs)
    else if 0xC2 ≤ b && b ≤ 0xDF then
      match bs with
      | b1 :: bs1 =>
        if contByte b1 then
          (decodeUtf8 bs1).map (fun cs =>
            Char.ofNat ((b - 0xC0) * 0x40 + (b1 - 0x80)) :: cs)
        else none
      | [] => none
    else if 0xE0 ≤ b && b ≤ 0xEF then
      match bs with
      | b1 :: b2 :: bs2 =>
        if (if b = 0xE0 then 0xA0 ≤ b1 && b1 ≤ 0xBF
            else if b = 0xED then 0x80 ≤ b1 && b1 ≤ 0x9F
            else contByte b1) && contByte b2 then
          (decodeUtf8 bs2).map (fun cs =>
            Char.ofNat ((b - 0xE0) * 0x1000 + (b1 - 0x80) * 0x40 + (b2 - 0x80)) :: cs)
        else none
      | _ => none
    else if 0xF0 ≤ b && b ≤ 0xF4 then
      match bs with
      | b1 :: b2 :: b3 :: bs3 =>
        if (if b = 0xF0 then 0x90 ≤ b1 && b1 ≤ 0xBF
            else if b = 0xF4 then 0x80 ≤ b1 && b1 ≤ 0x8F
            else contByte b1) && contByte b2 && contByte b3 then
          (decodeUtf8 bs3).map (fun cs =>
            Char.ofNat ((b - 0xF0) * 0x40000 + (b1 - 0x80) * 0x1000 +
              (b2 - 0x80) * 0x40 + (b3 - 0x80)) :: cs)
        else none
      | _ => none
    else none

/-! ### `str.splitlines()` -/

/-- Python line-break code points recognised by `str.splitlines`:
`\n \v \f \r \x1c \x1d \x1e \x85` and U+2028, U+2029. -/
def isLineBreak (c : Char) : Bool :=
  c.toNat == 10 || c.toNat == 11 || c.toNat == 12 || c.toNat == 13 ||
  c.toNat == 28 || c.toNat == 29 || c.toNat == 30 || c.toNat == 133 ||
  c.toNat == 8232 || c.toNat == 8233

/-- Worker for `splitlines`: `acc` holds the current line reversed.
`\r\n` counts as a single break; a trailing line without a final break
is emitted, a trailing break adds no empty line. -/
def splitlinesAux : List Char → List Char → List (List Char)
  | acc, [] => if acc.isEmpty then [] else [acc.reverse]
  | acc, c :: rest =>
    if c.toNat == 13 then
      match rest with
      | d :: rest1 =>
        if d.toNat == 10 then acc.reverse :: splitlinesAux [] rest1
        else acc.reverse :: splitlinesAux [] (d :: rest1)
      | [] => [acc.reverse]
    else if isLineBreak c then acc.reverse :: splitlinesAux [] rest
    else splitlinesAux (c :: acc) rest

/-- Python `str.splitlines()`. -/
def splitlines (s : List Char) : List (List Char) :=
  splitlinesAux [] s

/-! ### `parse_log` -/

/-- The body of the per-line loop of `parse_log`:
```
try:
    if ' - ' in line:
        parts = line.split(' - ', 2)
        data.append({'timestamp': parts[0], 'level': parts[1], 'message': parts[2]})
except:
    continue
```
`none` covers the skip branch (no delimiter) and the caught `IndexError`
when the split yields fewer than three parts (`parts[2]` out of range). -/
def parseLine (line : List Char) : Option LogRecord :=
  if containsSep delim line then
    match pySplit2 delim line with
    | [t, l, m] => some ⟨t, l, m⟩
    | _ => none
  else none

/-- The loop of `parse_log` over the decoded lines, in input order. -/
def parse_lines (lines : List (List Char)) : List LogRecord :=
  lines.filterMap parseLine

/-- A line contains at least two (non-overlapping, leftmost-first)
occurrences of the delimiter — the shape from which `parse_log` builds a
record. -/
def hasTwoDelims (line : List Char) : Bool :=
  match breakOnSep delim line with
  | none => false
  | some (_, r) => (breakOnSep delim r).isSome

/-- `parse_log(file)`: decode the raw bytes as UTF-8 (a decode failure
raises out of the function — the try/except is inside the loop, after
decoding), split into lines, and run the per-line loop. -/
def parse_log (bytes : List Nat) : Except String (List LogRecord) :=
  match decodeUtf8 bytes with
  | none => Except.error "UnicodeDecodeError"
  | some text => Except.ok (parse_lines (splitlines text))

/-! ### Record store (`store_logs` / `fetch_logs` over the `logs` table) -/

/-- `store_logs(df)`: `df.to_sql("logs", conn, if_exists="append")` —
append the parsed records to the table. -/
def store_logs (store : List LogRecord) (df : List LogRecord) : List LogRecord :=
  store ++ df

/-- Rows of `SELECT * FROM logs` for the stored suffix starting at
auto-increment id `i`; the derived columns are absent. -/
def fetchAux (i : Nat) : List LogRecord → List Row
  | [] => []
  | r :: rs => ⟨i, r.timestamp, r.level, r.message, none, none⟩ :: fetchAux (i + 1) rs

/-- `fetch_logs()`: read back the whole `logs` table as a dataframe,
ids starting at 1. -/
def fetch_logs (store : List LogRecord) : List Row :=
  fetchAux 1 store

/-! ### `detect_anomalies` -/

/-- The embedded signature of `IsolationForest(contamination, random_state)`
followed by `.fit_predict(data)`: contamination fraction, optional fixed
seed, ambient process randomness, one feature value per sample; result is
the label list or a raised exception. -/
abbrev Forest := Rat → Option Nat → Nat → List Nat → Except String (List Int)

/-- `detect_anomalies(df)`:
```
if df.empty or len(df) < 10:
    return df, []
df['length'] = df['message'].str.len()
model = IsolationForest(contamination=0.1, random_state=42)
df['anomaly'] = model.fit_predict(df[['length']])
anomalies = df[df['anomaly'] == -1]
return df, anomalies
```
A `fit_predict` exception propagates (the function has no handler). -/
def detect_anomalies (forest : Forest) (entropy : Nat) (df : List Row) :
    Except String (List Row × List Row) :=
  if df = [] ∨ df.length < 10 then
    Except.ok (df, [])
  else
    match forest 0.1 (some 42) entropy (df.map (fun r => r.message.length)) with
    | Except.error e => Except.error e
    | Except.ok labels =>
      let ann := (df.zip labels).map (fun p =>
        { p.1 with length := some p.1.message.length, anomaly := some p.2 })
      Except.ok (ann, ann.filter (fun r => r.anomaly == some (-1)))

/-- The detection step of the upload flow as seen from the store:
`logs_df = fetch_logs(); detect_anomalies(logs_df)`.  The first
component is the store after the step. -/
def detect_step (forest : Forest) (entropy : Nat) (store : List LogRecord) :
    List LogRecord × Except String (List Row × List Row) :=
  (store, detect_anomalies forest entropy (fetch_logs store))

/-! ### The upload flow (store effects and reported outcome) -/

/-- The store-affecting part of the upload handler:
`log_df = parse_log(uploaded_file)`, then either store the records and
report success (`.ok true`), or report "No valid log entries found"
(`.ok false`); a parse exception propagates before anything is stored. -/
def uploadStep (store : List LogRecord) (bytes : List Nat) :
    List LogRecord × Except String Bool :=
  match parse_log bytes with
  | Except.error e => (store, Except.error e)
  | Except.ok [] => (store, Except.ok false)
  | Except.ok recs => (store_logs store recs, Except.ok true)

/-! ### Lemmas about the splitting primitives -/

/-- If `sep` is a `BEq`-prefix of `l` then `l` is `sep` followed by the
rest of `l`. -/
theorem isPrefixOf_eq_append : ∀ (sep l : List Char),
    sep.isPrefixOf l = true → l = sep ++ l.drop sep.length := by
  intro sep
  induction sep with
  | nil => intro l _; simp
  | cons a as ih =>
    intro l h
    cases l with
    | nil => exact absurd h (by simp [List.isPrefixOf])
    | cons b bs =>
      have h1 : (a == b && as.isPrefixOf bs) = true := h
      rw [Bool.and_eq_true] at h1
      have hab : a = b := by simpa using h1.1
      subst hab
      show a :: bs = (a :: as) ++ ((a :: bs).drop (a :: as).length)
      simp only [List.length_cons, List.drop_succ_cons, List.cons_append]
      exact congrArg _ (ih bs h1.2)

/-- A `BEq`-prefix of `l` is a prefix of `l ++ t`. -/
theorem isPrefixOf_append_right : ∀ (sep l t : List Char),
    sep.isPrefixOf l = true → sep.isPrefixOf (l ++ t) = true := by
  intro sep
  induction sep with
  | nil => intro l t _; simp [List.isPrefixOf]
  | cons a as ih =>
    intro l t h
    cases l with
    | nil => exact absurd h (by simp [List.isPrefixOf])
    | cons b bs =>
      have h1 : (a == b && as.isPrefixOf bs) = true := h
      rw [Bool.and_eq_true] at h1
      show (a == b && as.isPrefixOf (bs ++ t)) = true
      rw [Bool.and_eq_true]
      exact ⟨h1.1, ih bs t h1.2⟩

/-- `breakOnSep` decomposes its input: the parts rejoined with the
separator give back the string. -/
theorem breakOnSep_eq_append {sep : List Char} : ∀ {s pre post : List Char},
    breakOnSep sep s = some (pre, post) → s = pre ++ sep ++ post := by
  intro s
  induction s with
  | nil => intro pre post h; simp [breakOnSep] at h
  | cons c rest ih =>
    intro pre post h
    unfold breakOnSep at h
    by_cases hp : sep.isPrefixOf (c :: rest) = true
    · rw [if_pos hp] at h
      obtain ⟨h1, h2⟩ := Prod.mk.injEq .. ▸ Option.some.injEq .. ▸ h
      subst h1; subst h2
      simpa using isPrefixOf_eq_append sep (c :: rest) hp
    · rw [if_neg hp] at h
      cases hb : breakOnSep sep rest with
      | none => rw [hb] at h; exact absurd h (by simp)
      | some pq =>
        obtain ⟨p, q⟩ := pq
        rw [hb] at h
        obtain ⟨h1, h2⟩ := Prod.mk.injEq .. ▸ Option.some.injEq .. ▸ h
        subst h1; subst h2
        simpa using ih hb

/-- The part before the first occurrence found by `breakOnSep` contains
no occurrence of the separator. -/
theorem breakOnSep_pre {sep : List Char} : ∀ {s pre post : List Char},
    breakOnSep sep s = some (pre, post) → breakOnSep sep pre = none := by
  intro s
  induction s with
  | nil => intro pre post h; simp [breakOnSep] at h
  | cons c rest ih =>
    intro pre post h
    unfold breakOnSep at h
    by_cases hp : sep.isPrefixOf (c :: rest) = true
    · rw [if_pos hp] at h
      obtain ⟨h1, _⟩ := Prod.mk.injEq .. ▸ Option.some.injEq .. ▸ h
      subst h1
      simp [breakOnSep]
    · rw [if_neg hp] at h
      cases hb : breakOnSep sep rest with
      | none => rw [hb] at h; exact absurd h (by simp)
      | some pq =>
        obtain ⟨p, q⟩ := pq
        rw [hb] at h
        obtain ⟨h1, _⟩ := Prod.mk.injEq .. ▸ Option.some.injEq .. ▸ h
        subst h1
        have hrest : rest = p ++ sep ++ q := breakOnSep_eq_append hb
        have hnp : sep.isPrefixOf (c :: p) ≠ true := by
          intro hcp
          have := isPrefixOf_append_right sep (c :: p) (sep ++ q) hcp
          rw [show (c :: p) ++ (sep ++ q) = c :: rest by simp [hrest]] at this
          exact hp this
        unfold breakOnSep
        rw [if_neg hnp, ih hb]

/-! ### C1: well-formed lines parse to exactly one faithful record -/

/-- C1: for a line with at least two occurrences of `' - '` — written
`t` before the first occurrence, `l` between the first and the second,
`m` everything after the second — `parse_log`'s line loop yields exactly
the one record `⟨t, l, m⟩`; the line really is `t ++ ' - ' ++ l ++ ' - ' ++ m`,
and `t` and `l` are delimiter-free, so any further `' - '` inside `m` is
kept intact in the message. -/
theorem parse_wellformed_line (line t rest l m : List Char)
    (h1 : breakOnSep delim line = some (t, rest))
    (h2 : breakOnSep delim rest = some (l, m)) :
    parse_lines [line] = [⟨t, l, m⟩] ∧
    line = t ++ delim ++ l ++ delim ++ m ∧
    breakOnSep delim t = none ∧ breakOnSep delim l = none := by
  refine ⟨?_, ?_, breakOnSep_pre h1, breakOnSep_pre h2⟩
  · simp [parse_lines, parseLine, containsSep, pySplit2, h1, h2]
  · have e1 : line = t ++ delim ++ rest := breakOnSep_eq_append h1
    have e2 : rest = l ++ delim ++ m := breakOnSep_eq_append h2
    rw [e1, e2]
    simp [List.append_assoc]

/-- Witness for C1 at the spec's scenario line, with an extra `' - '`
inside the message. -/
theorem parse_wellformed_line_w :
    parse_lines ["2024-01-01 10:00:00 - INFO - service started - extra".data] =
      [⟨"2024-01-01 10:00:00".data, "INFO".data, "service started - extra".data⟩] ∧
    "2024-01-01 10:00:00 - INFO - service started - extra".data =
      "2024-01-01 10:00:00".data ++ delim ++ "INFO".data ++ delim ++
        "service started - extra".data ∧
    breakOnSep delim "2024-01-01 10:00:00".data = none ∧
    breakOnSep delim "INFO".data = none :=
  parse_wellformed_line "2024-01-01 10:00:00 - INFO - service started - extra".data
    "2024-01-01 10:00:00".data "INFO - service started - extra".data
    "INFO".data "service started - extra".data (by decide) (by decide)

/-! ### C6: malformed lines are silently dropped -/

/-- C6: a line with fewer than two occurrences of `' - '` produces no
record; dropping it does not disturb the parsing of the surrounding
lines; every record produced by the loop comes from a line with at least
two occurrences; and an input with no such line parses to the empty
result. -/
theorem parse_malformed_dropped :
    (∀ line, hasTwoDelims line = false → parseLine line = none) ∧
    (∀ pre line post, hasTwoDelims line = false →
      parse_lines (pre ++ line :: post) = parse_lines pre ++ parse_lines post) ∧
    (∀ lines r, r ∈ parse_lines lines →
      ∃ line ∈ lines, hasTwoDelims line = true ∧ parseLine line = some r) ∧
    (∀ lines, (∀ l ∈ lines, hasTwoDelims l = false) → parse_lines lines = []) := by
  have ha : ∀ line, hasTwoDelims line = false → parseLine line = none := by
    intro line h
    unfold hasTwoDelims at h
    cases hb : breakOnSep delim line with
    | none => simp [parseLine, containsSep, hb]
    | some pr =>
      obtain ⟨a, r⟩ := pr
      rw [hb] at h
      have h1 : (breakOnSep delim r).isSome = false := h
      cases hb2 : breakOnSep delim r with
      | none => simp [parseLine, containsSep, pySplit2, hb, hb2]
      | some pr2 => rw [hb2] at h1; exact absurd h1 (by simp)
  refine ⟨ha, ?_, ?_, ?_⟩
  · intro pre line post h
    simp [parse_lines, List.filterMap_append, List.filterMap_cons, ha line h]
  · intro lines r hr
    simp only [parse_lines, List.mem_filterMap] at hr
    obtain ⟨line, hline, hsome⟩ := hr
    refine ⟨line, hline, ?_, hsome⟩
    cases h2 : hasTwoDelims line with
    | false => rw [ha line h2] at hsome; exact absurd hsome (by simp)
    | true => rfl
  · intro lines h
    simp only [parse_lines, List.filterMap_eq_nil_iff]
    intro l hl
    exact ha l (h l hl)

/-- Witness for C6: a delimiter-free line and a single-delimiter line
between two well-formed lines are dropped without affecting them. -/
theorem parse_malformed_dropped_w :
    parse_lines (["a - b - c".data] ++ "no delimiter".data ::
        ["t2 - WARN - w".data]) =
      parse_lines ["a - b - c".data] ++ parse_lines ["t2 - WARN - w".data] :=
  parse_malformed_dropped.2.1 ["a - b - c".data] "no delimiter".data
    ["t2 - WARN - w".data] (by decide)

/-! ### C10: no non-emptiness validation of the three fields -/

/-- C10: `parse_log` accepts lines whose split parts are empty: the line
`' -  - '` (two adjacent delimiters) parses to a record with all three
fields empty, and a line beginning and ending with `' - '` parses to a
record with empty timestamp and message; both records land in the result
like any other. -/
theorem parse_accepts_empty_fields :
    parse_lines [delim ++ delim, " - b - ".data, "a - b - c".data] =
      [⟨[], [], []⟩, ⟨[], "b".data, []⟩,
        ⟨"a".data, "b".data, "c".data⟩] := by decide

/-! ### C2: fewer than ten records — detection is skipped -/

/-- C2: on an input of fewer than ten rows (which subsumes the empty
dataframe), `detect_anomalies` returns the input rows unchanged — no
length or anomaly column is added — and an empty outlier set, whatever
the rows contain and whatever the model would do. -/
theorem detect_skip_small (forest : Forest) (entropy : Nat) (df : List Row)
    (h : df.length < 10) :
    detect_anomalies forest entropy df = Except.ok (df, []) := by
  unfold detect_anomalies
  rw [if_pos (Or.inr h)]

/-- Witness for C2 on a nine-row corpus. -/
theorem detect_skip_small_w :
    detect_anomalies (fun _ _ _ _ => Except.ok []) 0
      (List.replicate 9 (⟨1, "t".data, "INFO".data, "m".data, none, none⟩ : Row)) =
    Except.ok
      (List.replicate 9 (⟨1, "t".data, "INFO".data, "m".data, none, none⟩ : Row), []) :=
  detect_skip_small (fun _ _ _ _ => Except.ok []) 0 _ (by decide)

/-! ### C3: at least ten records — total labelling, outliers = label -1 -/

/-- C3: on at least ten rows, when `fit_predict` returns (as sklearn
documents) one label per sample, each `-1` or `1`, the annotated output
of `detect_anomalies` has exactly as many rows as the input, every row
carries an anomaly label `-1` or `1`, and the returned outlier set is
exactly the annotated rows whose label is `-1`. -/
theorem detect_labels_total (forest : Forest) (entropy : Nat) (df : List Row)
    (labels : List Int)
    (h10 : 10 ≤ df.length)
    (hfit : forest 0.1 (some 42) entropy (df.map (fun r => r.message.length)) =
      Except.ok labels)
    (hlen : labels.length = df.length)
    (hval : ∀ a ∈ labels, a = -1 ∨ a = 1) :
    ∃ ann out, detect_anomalies forest entropy df = Except.ok (ann, out) ∧
      ann.length = df.length ∧
      (∀ r ∈ ann, r.anomaly = some (-1) ∨ r.anomaly = some 1) ∧
      out = ann.filter (fun r => r.anomaly == some (-1)) := by
  have hne : ¬(df = [] ∨ df.length < 10) := by
    rintro (rfl | hlt)
    · simp at h10
    · omega
  unfold detect_anomalies
  rw [if_neg hne, hfit]
  refine ⟨_, _, rfl, ?_, ?_, rfl⟩
  · simp [List.length_zip, hlen]
  · intro r hr
    rw [List.mem_map] at hr
    obtain ⟨p, hp, rfl⟩ := hr
    obtain ⟨a, b⟩ := p
    rcases hval b (List.of_mem_zip hp).2 with h | h <;> simp [h]

/-- Witness for C3: a ten-row corpus and a model answering `1` for every
sample. -/
theorem detect_labels_total_w :
    ∃ ann out,
      detect_anomalies (fun _ _ _ d => Except.ok (d.map (fun _ => (1 : Int)))) 0
        (List.replicate 10 (⟨1, "t".data, "INFO".data, "m".data, none, none⟩ : Row)) =
        Except.ok (ann, out) ∧
      ann.length =
        (List.replicate 10 (⟨1, "t".data, "INFO".data, "m".data, none, none⟩ : Row)).length ∧
      (∀ r ∈ ann, r.anomaly = some (-1) ∨ r.anomaly = some 1) ∧
      out = ann.filter (fun r => r.anomaly == some (-1)) :=
  detect_labels_total (fun _ _ _ d => Except.ok (d.map (fun _ => (1 : Int)))) 0
    (List.replicate 10 (⟨1, "t".data, "INFO".data, "m".data, none, none⟩ : Row))
    (List.replicate 10 (1 : Int)) (by decide) rfl (by decide) (by decide)

/-! ### C4: fixed seed — the result does not depend on ambient randomness -/

/-- C4: the call hardcodes feature, `contamination=0.1` and
`random_state=42`; under sklearn's reproducibility contract (a model
with a fixed `random_state` ignores the ambient process randomness),
two runs of `detect_anomalies` on the same rows give identical annotated
results and identical outlier sets whatever the ambient randomness of
each run was. -/
theorem detect_entropy_independent (forest : Forest)
    (hseed : ∀ c s e1 e2 d, forest c (some s) e1 d = forest c (some s) e2 d)
    (e1 e2 : Nat) (df : List Row) :
    detect_anomalies forest e1 df = detect_anomalies forest e2 df := by
  unfold detect_anomalies
  by_cases hc : df = [] ∨ df.length < 10
  · rw [if_pos hc, if_pos hc]
  · rw [if_neg hc, if_neg hc, hseed 0.1 42 e1 e2 (df.map (fun r => r.message.length))]

/-- Witness for C4: two runs with different ambient randomness on the
same ten-row corpus. -/
theorem detect_entropy_independent_w :
    detect_anomalies (fun _ _ _ d => Except.ok (d.map (fun _ => (1 : Int)))) 0
      (List.replicate 10 (⟨1, "t".data, "INFO".data, "m".data, none, none⟩ : Row)) =
    detect_anomalies (fun _ _ _ d => Except.ok (d.map (fun _ => (1 : Int)))) 1
      (List.replicate 10 (⟨1, "t".data, "INFO".data, "m".data, none, none⟩ : Row)) :=
  detect_entropy_independent (fun _ _ _ d => Except.ok (d.map (fun _ => (1 : Int))))
    (fun _ _ _ _ _ => rfl) 0 1
    (List.replicate 10 (⟨1, "t".data, "INFO".data, "m".data, none, none⟩ : Row))

/-! ### C5: a fit/predict failure propagates out of the detector raw -/

/-- C5 (documents the bug): `detect_anomalies` has no exception handler,
so on at least ten rows a `fit_predict` failure propagates to the caller
verbatim — the caller receives the model's own raised fault, not a
distinct detection-stage error, and (the call site not catching it
either) the whole request fails instead of degrading to output without
the anomaly section.  No partial or corrupt result is returned. -/
theorem detect_error_propagates (forest : Forest) (entropy : Nat) (df : List Row)
    (e : String)
    (h10 : 10 ≤ df.length)
    (hfit : forest 0.1 (some 42) entropy (df.map (fun r => r.message.length)) =
      Except.error e) :
    detect_anomalies forest entropy df = Except.error e := by
  have hne : ¬(df = [] ∨ df.length < 10) := by
    rintro (rfl | hlt)
    · simp at h10
    · omega
  unfold detect_anomalies
  rw [if_neg hne, hfit]

/-- Witness for C5: ten rows and a model whose fit raises. -/
theorem detect_error_propagates_w :
    detect_anomalies (fun _ _ _ _ => Except.error "fit failed") 0
      (List.replicate 10 (⟨1, "t".data, "INFO".data, "m".data, none, none⟩ : Row)) =
    Except.error "fit failed" :=
  detect_error_propagates (fun _ _ _ _ => Except.error "fit failed") 0
    (List.replicate 10 (⟨1, "t".data, "INFO".data, "m".data, none, none⟩ : Row))
    "fit failed" (by decide) rfl

/-! ### Lemmas about `fetchAux` and annotation -/

/-- Fetching preserves the number of stored records. -/
theorem fetchAux_length : ∀ (i : Nat) (l : List LogRecord),
    (fetchAux i l).length = l.length := by
  intro i l
  induction l generalizing i with
  | nil => rfl
  | cons r rs ih => simp [fetchAux, ih]

/-- Fetching preserves the three text fields, rowwise. -/
theorem fetchAux_fields : ∀ (i : Nat) (l : List LogRecord),
    (fetchAux i l).map rowFields = l.map recFields := by
  intro i l
  induction l generalizing i with
  | nil => rfl
  | cons r rs ih => simp [fetchAux, rowFields, recFields, ih]

/-- Fetching a concatenation is the concatenation of the fetches, the
second with shifted ids. -/
theorem fetchAux_append : ∀ (i : Nat) (l1 l2 : List LogRecord),
    fetchAux i (l1 ++ l2) = fetchAux i l1 ++ fetchAux (i + l1.length) l2 := by
  intro i l1
  induction l1 generalizing i with
  | nil => intro l2; simp [fetchAux]
  | cons r rs ih =>
    intro l2
    have e1 : fetchAux i ((r :: rs) ++ l2) =
        ⟨i, r.timestamp, r.level, r.message, none, none⟩ :: fetchAux (i + 1) (rs ++ l2) := rfl
    have e2 : fetchAux i (r :: rs) =
        ⟨i, r.timestamp, r.level, r.message, none, none⟩ :: fetchAux (i + 1) rs := rfl
    rw [e1, e2, ih (i + 1), List.length_cons, List.cons_append,
      show i + (rs.length + 1) = i + 1 + rs.length by omega]

/-- Every stored record appears among the fetched rows with its fields
intact. -/
theorem mem_fetchAux_of_mem : ∀ (i : Nat) (l : List LogRecord) (r : LogRecord),
    r ∈ l → ∃ row ∈ fetchAux i l, rowFields row = recFields r := by
  intro i l
  induction l generalizing i with
  | nil => intro r hr; exact absurd hr (by simp)
  | cons a as ih =>
    intro r hr
    rcases List.mem_cons.mp hr with rfl | htail
    · exact ⟨⟨i, r.timestamp, r.level, r.message, none, none⟩, by simp [fetchAux], rfl⟩
    · obtain ⟨row, hmem, hf⟩ := ih (i + 1) r htail
      exact ⟨row, by simp [fetchAux, hmem], hf⟩

/-- Annotating (the zip-with-labels map of `detect_anomalies`) keeps the
text fields of the first `length labels` rows, in order. -/
theorem zip_ann_fields : ∀ (rows : List Row) (labels : List Int),
    ((rows.zip labels).map (fun p =>
        { p.1 with length := some p.1.message.length, anomaly := some p.2 })).map
        rowFields
      = (rows.map rowFields).take ((rows.zip labels).length) := by
  intro rows
  induction rows with
  | nil => intro labels; rfl
  | cons r rs ih =>
    intro labels
    cases labels with
    | nil => rfl
    | cons a as => simp [List.zip_cons_cons, rowFields, ih as]

/-! ### C7: detection neither writes the store nor edits the text fields -/

/-- C7: the detection step (`fetch_logs` then `detect_anomalies`) leaves
the persisted store exactly as it was — the anomaly label lives only on
the per-call dataframe — and every row of the annotated result keeps the
timestamp, level and message of the stored record at its position; only
the derived columns are added. -/
theorem detect_preserves_store (forest : Forest) (entropy : Nat)
    (store : List LogRecord) (ann out : List Row)
    (h : (detect_step forest entropy store).2 = Except.ok (ann, out)) :
    (detect_step forest entropy store).1 = store ∧
    ann.map rowFields = (store.map recFields).take ann.length := by
  refine ⟨rfl, ?_⟩
  have h2 : detect_anomalies forest entropy (fetch_logs store) = Except.ok (ann, out) := h
  unfold detect_anomalies at h2
  by_cases hc : fetch_logs store = [] ∨ (fetch_logs store).length < 10
  · rw [if_pos hc] at h2
    simp only [Except.ok.injEq, Prod.mk.injEq] at h2
    obtain ⟨h3, _⟩ := h2
    subst h3
    unfold fetch_logs
    rw [fetchAux_fields, fetchAux_length]
    rw [show store.length = (store.map recFields).length by simp, List.take_length]
  · rw [if_neg hc] at h2
    cases hfp : forest 0.1 (some 42) entropy
        ((fetch_logs store).map (fun r => r.message.length)) with
    | error e => rw [hfp] at h2; exact absurd h2 (by simp)
    | ok labels =>
      rw [hfp] at h2
      simp only [Except.ok.injEq, Prod.mk.injEq] at h2
      obtain ⟨h3, _⟩ := h2
      subst h3
      rw [zip_ann_fields, List.length_map]
      unfold fetch_logs
      rw [fetchAux_fields]

/-- Witness for C7 on a two-record store (the skip branch of detection). -/
theorem detect_preserves_store_w :
    (detect_step (fun _ _ _ _ => Except.ok []) 0
      [⟨"t1".data, "INFO".data, "alpha".data⟩,
        ⟨"t2".data, "ERROR".data, "beta".data⟩]).1 =
      [⟨"t1".data, "INFO".data, "alpha".data⟩,
        ⟨"t2".data, "ERROR".data, "beta".data⟩] ∧
    (fetch_logs [⟨"t1".data, "INFO".data, "alpha".data⟩,
        ⟨"t2".data, "ERROR".data, "beta".data⟩]).map rowFields =
      ([⟨"t1".data, "INFO".data, "alpha".data⟩,
        ⟨"t2".data, "ERROR".data, "beta".data⟩].map recFields).take
        (fetch_logs [⟨"t1".data, "INFO".data, "alpha".data⟩,
          ⟨"t2".data, "ERROR".data, "beta".data⟩]).length :=
  detect_preserves_store (fun _ _ _ _ => Except.ok []) 0
    [⟨"t1".data, "INFO".data, "alpha".data⟩, ⟨"t2".data, "ERROR".data, "beta".data⟩]
    (fetch_logs [⟨"t1".data, "INFO".data, "alpha".data⟩,
      ⟨"t2".data, "ERROR".data, "beta".data⟩]) [] rfl

/-! ### C8: fetch after append is a verbatim superset -/

/-- C8: after `store_logs` appends a batch, `fetch_logs` returns every
appended record with its three text fields verbatim, and still returns
every row it returned before the append — whatever was in the store
before. -/
theorem fetch_after_append_superset (store records : List LogRecord) :
    (∀ r ∈ records, ∃ row ∈ fetch_logs (store_logs store records),
      rowFields row = recFields r) ∧
    (∀ row ∈ fetch_logs store, row ∈ fetch_logs (store_logs store records)) := by
  constructor
  · intro r hr
    obtain ⟨row, hmem, hf⟩ := mem_fetchAux_of_mem (1 + store.length) records r hr
    refine ⟨row, ?_, hf⟩
    unfold fetch_logs store_logs
    rw [fetchAux_append]
    exact List.mem_append_right _ hmem
  · intro row hrow
    unfold fetch_logs store_logs
    rw [fetchAux_append]
    exact List.mem_append_left _ hrow

/-- Witness for C8: both appended records are fetched verbatim over a
non-empty prior store, whose row is still fetched. -/
theorem fetch_after_append_superset_w :
    (∃ row ∈ fetch_logs (store_logs [⟨"t0".data, "INFO".data, "old".data⟩]
        [⟨"t1".data, "WARN".data, "new1".data⟩, ⟨"t2".data, "ERROR".data, "new2".data⟩]),
      rowFields row = recFields ⟨"t1".data, "WARN".data, "new1".data⟩) ∧
    (⟨1, "t0".data, "INFO".data, "old".data, none, none⟩ : Row) ∈
      fetch_logs (store_logs [⟨"t0".data, "INFO".data, "old".data⟩]
        [⟨"t1".data, "WARN".data, "new1".data⟩, ⟨"t2".data, "ERROR".data, "new2".data⟩]) :=
  ⟨(fetch_after_append_superset [⟨"t0".data, "INFO".data, "old".data⟩]
      [⟨"t1".data, "WARN".data, "new1".data⟩, ⟨"t2".data, "ERROR".data, "new2".data⟩]).1
      ⟨"t1".data, "WARN".data, "new1".data⟩ (by decide),
    (fetch_after_append_superset [⟨"t0".data, "INFO".data, "old".data⟩]
      [⟨"t1".data, "WARN".data, "new1".data⟩, ⟨"t2".data, "ERROR".data, "new2".data⟩]).2
      ⟨1, "t0".data, "INFO".data, "old".data, none, none⟩ (by decide)⟩

/-! ### C9: invalid UTF-8 rejects the whole upload -/

/-- C9: when the uploaded bytes are not valid UTF-8, `parse_log` raises
the decode error for the whole upload — no record is produced — and the
upload handler leaves the store untouched and reports the error instead
of a successful (or empty) ingestion. -/
theorem decode_failure_rejects_upload (store : List LogRecord) (bytes : List Nat)
    (h : decodeUtf8 bytes = none) :
    parse_log bytes = Except.error "UnicodeDecodeError" ∧
    uploadStep store bytes = (store, Except.error "UnicodeDecodeError") := by
  have hp : parse_log bytes = Except.error "UnicodeDecodeError" := by
    unfold parse_log
    rw [h]
  refine ⟨hp, ?_⟩
  unfold uploadStep
  rw [hp]

/-- Witness for C9 on a byte sequence starting with an invalid byte. -/
theorem decode_failure_rejects_upload_w :
    parse_log [255, 104, 105] = Except.error "UnicodeDecodeError" ∧
    uploadStep [⟨"t0".data, "INFO".data, "old".data⟩] [255, 104, 105] =
      ([⟨"t0".data, "INFO".data, "old".data⟩], Except.error "UnicodeDecodeError") :=
  decode_failure_rejects_upload [⟨"t0".data, "INFO".data, "old".data⟩]
    [255, 104, 105] (by decide)
